import Mathlib

/-!
Verification of the token-usage accounting and cost-aggregation core of the
ragas documentation repository.  The repository's visible sources are the
cost how-to notebook (`docs/howtos/applications/cost.ipynb`) and an
evaluation guide; they call `ragas.cost` (`TokenUsage`,
`get_token_usage_for_openai`, `total_tokens`, `total_cost`) but the module
itself is not among the sources, so the accounting core below is modelled
from the specification's words.
-/

/-- Modelled from the spec: the `TokenUsage` record of `ragas.cost`, whose
implementation is absent from the sources.  Immutable record of
non-negative input and output token counts for one generation call, plus a
model name that may be empty when unknown. -/
structure TokenUsage where
  input_tokens : Nat
  output_tokens : Nat
  model : String
deriving DecidableEq, Repr

/-- Modelled from the spec: per-generation token counts inside a raw
provider response.  `none` stands for a missing or malformed field, which
the reference parser treats as zero. -/
structure UsageMetadata where
  input_tokens : Nat
  output_tokens : Nat
deriving DecidableEq, Repr

/-- Modelled from the spec: one generation inside a raw provider response;
its usage metadata may be missing or malformed. -/
structure Generation where
  usage_metadata : Option UsageMetadata
deriving DecidableEq, Repr

/-- Modelled from the spec: the opaque provider response
(`RawGenerationResult`); langchain results nest generations as a list of
lists, and the reference parser sums across all of them. -/
structure RawGenerationResult where
  generations : List (List Generation)
deriving DecidableEq, Repr

/-- Modelled from the spec: the built-in reference parser
`get_token_usage_for_openai` of `ragas.cost`, absent from the sources.  It
sums input and output tokens across all generations in the result, treats
missing or malformed token fields as zero, and leaves the model name
empty. -/
def get_token_usage_for_openai (raw : RawGenerationResult) : TokenUsage :=
  { input_tokens :=
      (raw.generations.flatten.map
        (fun g => (g.usage_metadata.map (fun m => m.input_tokens)).getD 0)).sum
    output_tokens :=
      (raw.generations.flatten.map
        (fun g => (g.usage_metadata.map (fun m => m.output_tokens)).getD 0)).sum
    model := "" }

/-- Modelled from the spec: a `UsageParser` is a pure function from a raw
provider response to a normalized usage record. -/
def UsageParser : Type := RawGenerationResult → TokenUsage

/-- Modelled from the spec: the lookup-class error raised when resolving
an unregistered provider identifier. -/
inductive RegistryError where
  | lookupError
deriving DecidableEq, Repr

/-- Modelled from the spec: the parser registry, a mapping from provider
identifiers to parsers.  Represented as an association list where the most
recent registration comes first, so re-registration is last-write-wins. -/
def Registry : Type := List (String × UsageParser)

/-- Modelled from the spec: the empty registry. -/
def Registry.empty : Registry := []

/-- Modelled from the spec: `register(providerId, parser)` stores a parser
under a key; re-registration overwrites silently (last write wins). -/
def Registry.register (reg : Registry) (k : String) (p : UsageParser) :
    Registry :=
  (k, p) :: reg

/-- Modelled from the spec: `resolve(providerId)` returns the registered
parser, or fails with a lookup-class error when none is registered; it
never returns a default parser. -/
def Registry.resolve : Registry → String → Except RegistryError UsageParser
  | [], _ => .error .lookupError
  | kv :: rest, k => if kv.1 = k then .ok kv.2 else Registry.resolve rest k

/-- Modelled from the spec: whether some parser is registered under the
given provider identifier. -/
def Registry.isRegistered (reg : Registry) (k : String) : Bool :=
  reg.any (fun kv => kv.1 = k)

/-- Modelled from the spec: the invalid-argument error raised by the cost
computation on a negative price. -/
inductive CostError where
  | invalidArgument
deriving DecidableEq, Repr

/-- Modelled from the spec: the `CostAccumulator`, a mutable aggregate
holding an ordered sequence of recorded `TokenUsage` records. -/
structure CostAccumulator where
  usages : List TokenUsage
deriving DecidableEq, Repr

/-- Modelled from the spec: a freshly constructed accumulator with nothing
recorded. -/
def CostAccumulator.empty : CostAccumulator := ⟨[]⟩

/-- Modelled from the spec: `record(usage)` appends a usage record to the
accumulator. -/
def CostAccumulator.record (acc : CostAccumulator) (u : TokenUsage) :
    CostAccumulator :=
  ⟨acc.usages ++ [u]⟩

/-- Modelled from the spec: running total of input tokens, the sum over
all recorded usages. -/
def CostAccumulator.inputTotal (acc : CostAccumulator) : Nat :=
  (acc.usages.map (fun u => u.input_tokens)).sum

/-- Modelled from the spec: running total of output tokens, the sum over
all recorded usages. -/
def CostAccumulator.outputTotal (acc : CostAccumulator) : Nat :=
  (acc.usages.map (fun u => u.output_tokens)).sum

/-- Modelled from the spec: `totalTokens()` returns the componentwise sum
of all recorded usages; the model field of the aggregate is left empty. -/
def CostAccumulator.totalTokens (acc : CostAccumulator) : TokenUsage :=
  { input_tokens := acc.inputTotal
    output_tokens := acc.outputTotal
    model := "" }

/-- Modelled from the spec: `totalCost(costPerInputToken,
costPerOutputToken)` computes `inputTotal * costPerInputToken +
outputTotal * costPerOutputToken` with no internal rounding (prices are
modelled as exact rationals); it fails with an invalid-argument condition
when either price is negative, and zero prices are permitted. -/
def CostAccumulator.totalCost (acc : CostAccumulator)
    (cost_per_input_token cost_per_output_token : ℚ) :
    Except CostError ℚ :=
  if cost_per_input_token < 0 ∨ cost_per_output_token < 0 then
    .error .invalidArgument
  else
    .ok ((acc.inputTotal : ℚ) * cost_per_input_token +
      (acc.outputTotal : ℚ) * cost_per_output_token)

/-- Modelled from the spec: the operations exposed on a cost accumulator;
recording mutates the totals, the two queries are read-only. -/
inductive AccOp where
  | recordOp (u : TokenUsage)
  | totalTokensOp
  | totalCostOp (cost_per_input_token cost_per_output_token : ℚ)

/-- Modelled from the spec: effect of one exposed operation on the
accumulator state; only `record` changes it. -/
def AccOp.step (acc : CostAccumulator) : AccOp → CostAccumulator
  | .recordOp u => acc.record u
  | .totalTokensOp => acc
  | .totalCostOp _ _ => acc

/-- Recording a whole list of usages in order. -/
def CostAccumulator.recordAll (acc : CostAccumulator) (l : List TokenUsage) :
    CostAccumulator :=
  l.foldl CostAccumulator.record acc

theorem usages_recordAll (acc : CostAccumulator) (l : List TokenUsage) :
    (acc.recordAll l).usages = acc.usages ++ l := by
  induction l generalizing acc with
  | nil => simp [CostAccumulator.recordAll]
  | cons u rest ih =>
    simp only [CostAccumulator.recordAll, List.foldl_cons] at ih ⊢
    rw [ih, CostAccumulator.record]
    simp

theorem inputTotal_record (acc : CostAccumulator) (u : TokenUsage) :
    (acc.record u).inputTotal = acc.inputTotal + u.input_tokens := by
  simp [CostAccumulator.record, CostAccumulator.inputTotal]

theorem outputTotal_record (acc : CostAccumulator) (u : TokenUsage) :
    (acc.record u).outputTotal = acc.outputTotal + u.output_tokens := by
  simp [CostAccumulator.record, CostAccumulator.outputTotal]

theorem step_le_inputTotal (acc : CostAccumulator) (op : AccOp) :
    acc.inputTotal ≤ (AccOp.step acc op).inputTotal := by
  cases op with
  | recordOp u => rw [AccOp.step, inputTotal_record]; exact Nat.le_add_right _ _
  | totalTokensOp => exact Nat.le_refl _
  | totalCostOp pin pout => exact Nat.le_refl _

theorem step_le_outputTotal (acc : CostAccumulator) (op : AccOp) :
    acc.outputTotal ≤ (AccOp.step acc op).outputTotal := by
  cases op with
  | recordOp u => rw [AccOp.step, outputTotal_record]; exact Nat.le_add_right _ _
  | totalTokensOp => exact Nat.le_refl _
  | totalCostOp pin pout => exact Nat.le_refl _

/-- C1: for every sequence of recorded usages, `totalTokens` returns the
componentwise sum of all recorded input and output token counts; recording
`(a, b)` then `(c, d)` into a fresh accumulator yields `(a + c, b + d)`,
and both running totals are always non-negative. -/
theorem totalTokens_componentwise_sum (l : List TokenUsage)
    (a b c d : Nat) (acc : CostAccumulator) :
    (CostAccumulator.empty.recordAll l).totalTokens =
      ⟨(l.map (fun u => u.input_tokens)).sum,
       (l.map (fun u => u.output_tokens)).sum, ""⟩
    ∧ ((CostAccumulator.empty.record ⟨a, b, ""⟩).record
        ⟨c, d, ""⟩).totalTokens = ⟨a + c, b + d, ""⟩
    ∧ 0 ≤ acc.inputTotal ∧ 0 ≤ acc.outputTotal := by
  refine ⟨?_, ?_, Nat.zero_le _, Nat.zero_le _⟩
  · simp [CostAccumulator.totalTokens, CostAccumulator.inputTotal,
      CostAccumulator.outputTotal, usages_recordAll, CostAccumulator.empty]
  · simp [CostAccumulator.totalTokens, inputTotal_record, outputTotal_record,
      CostAccumulator.inputTotal, CostAccumulator.outputTotal,
      CostAccumulator.empty, CostAccumulator.record]

/-- C2: for every accumulator state and all non-negative prices,
`totalCost` returns exactly `inputTotal * p_in + outputTotal * p_out` with
no internal rounding; `totalCost 0 0` returns `0` regardless of recorded
usage, and doubling either price doubles the corresponding cost
contribution. -/
theorem totalCost_exact_linear (acc : CostAccumulator) (p_in p_out : ℚ)
    (hin : 0 ≤ p_in) (hout : 0 ≤ p_out) :
    acc.totalCost p_in p_out =
      .ok ((acc.inputTotal : ℚ) * p_in + (acc.outputTotal : ℚ) * p_out)
    ∧ acc.totalCost 0 0 = .ok 0
    ∧ acc.totalCost (2 * p_in) p_out =
      .ok (2 * ((acc.inputTotal : ℚ) * p_in) + (acc.outputTotal : ℚ) * p_out)
    ∧ acc.totalCost p_in (2 * p_out) =
      .ok ((acc.inputTotal : ℚ) * p_in + 2 * ((acc.outputTotal : ℚ) * p_out)) := by
  have h1 : ¬(p_in < 0 ∨ p_out < 0) := by push_neg; exact ⟨hin, hout⟩
  have h2 : ¬(2 * p_in < 0 ∨ p_out < 0) := by
    push_neg; exact ⟨by linarith, hout⟩
  have h3 : ¬(p_in < 0 ∨ 2 * p_out < 0) := by
    push_neg; exact ⟨hin, by linarith⟩
  refine ⟨?_, ?_, ?_, ?_⟩
  · simp [CostAccumulator.totalCost, h1]
  · simp [CostAccumulator.totalCost]
  · simp only [CostAccumulator.totalCost, h2, if_false]
    congr 1
    ring
  · simp only [CostAccumulator.totalCost, h3, if_false]
    congr 1
    ring

theorem totalCost_exact_linear_witness :
    (CostAccumulator.empty.record ⟨100, 50, ""⟩).totalCost 1 2 = .ok 200 := by
  have h := totalCost_exact_linear (CostAccumulator.empty.record ⟨100, 50, ""⟩)
    1 2 (by norm_num) (by norm_num)
  rw [h.1]
  norm_num [CostAccumulator.inputTotal, CostAccumulator.outputTotal,
    CostAccumulator.record, CostAccumulator.empty]

/-- C3: for every accumulator state, `totalCost` with a negative price
fails with the invalid-argument condition, never silently clamped, and the
accumulator state is unchanged by the query; a price of exactly zero is
accepted. -/
theorem totalCost_negative_price_rejected (acc : CostAccumulator)
    (p_in p_out : ℚ) (h : p_in < 0 ∨ p_out < 0) :
    acc.totalCost p_in p_out = .error .invalidArgument
    ∧ AccOp.step acc (.totalCostOp p_in p_out) = acc
    ∧ ∃ v, acc.totalCost 0 0 = .ok v := by
  refine ⟨?_, rfl, ?_⟩
  · simp [CostAccumulator.totalCost, h]
  · exact ⟨0, by simp [CostAccumulator.totalCost]⟩

theorem totalCost_negative_price_rejected_witness :
    (CostAccumulator.empty.record ⟨3, 4, ""⟩).totalCost (-1) 0 =
      .error .invalidArgument
    ∧ AccOp.step (CostAccumulator.empty.record ⟨3, 4, ""⟩)
        (.totalCostOp (-1) 0) = CostAccumulator.empty.record ⟨3, 4, ""⟩
    ∧ ∃ v, (CostAccumulator.empty.record ⟨3, 4, ""⟩).totalCost 0 0 = .ok v := by
  exact totalCost_negative_price_rejected _ (-1) 0 (Or.inl (by norm_num))

/-- C4: resolving an unregistered provider identifier always fails with
the lookup-class error and never yields a parser; resolving a registered
identifier returns a parser. -/
theorem resolve_lookup_semantics (reg : Registry) (k : String) :
    (reg.isRegistered k = false → reg.resolve k = .error .lookupError)
    ∧ (reg.isRegistered k = true → ∃ p, reg.resolve k = .ok p) := by
  induction reg with
  | nil =>
    refine ⟨fun _ => rfl, fun h => ?_⟩
    simp [Registry.isRegistered] at h
  | cons kv rest ih =>
    by_cases hk : kv.1 = k
    · refine ⟨fun h => ?_, fun _ => ?_⟩
      · simp [Registry.isRegistered, hk] at h
      · exact ⟨kv.2, by simp [Registry.resolve, hk]⟩
    · refine ⟨fun h => ?_, fun h => ?_⟩
      · simp only [Registry.isRegistered, List.any_cons, Bool.or_eq_false_iff] at h
        rw [Registry.resolve, if_neg hk]
        exact ih.1 h.2
      · simp only [Registry.isRegistered, List.any_cons, Bool.or_eq_true,
          decide_eq_true_eq] at h
        rcases h with h | h
        · exact absurd h hk
        · rw [Registry.resolve, if_neg hk]
          exact ih.2 h

theorem resolve_lookup_semantics_witness :
    Registry.empty.resolve "openai" = .error .lookupError
    ∧ ∃ p, (Registry.empty.register "openai"
        get_token_usage_for_openai).resolve "openai" = .ok p := by
  refine ⟨(resolve_lookup_semantics Registry.empty "openai").1 rfl,
    (resolve_lookup_semantics
      (Registry.empty.register "openai" get_token_usage_for_openai)
      "openai").2 ?_⟩
  simp [Registry.isRegistered, Registry.register, Registry.empty]

/-- C5: the reference parser never raises on malformed or missing token
fields — a generation with missing usage metadata contributes zero to both
sums (dropping it does not change the result) — and parsing a raw result
with zero generations yields `TokenUsage(0, 0, "")`. -/
theorem openai_parser_permissive (g : List Generation)
    (gens : List (List Generation)) :
    get_token_usage_for_openai ⟨[]⟩ = ⟨0, 0, ""⟩
    ∧ get_token_usage_for_openai ⟨(Generation.mk none :: g) :: gens⟩ =
        get_token_usage_for_openai ⟨g :: gens⟩ := by
  constructor
  · rfl
  · simp [get_token_usage_for_openai]

/-- C6: recording exactly the usages `(100, 50)` and `(16665, 38981)`
yields `totalTokens() = (16765, 39031)`, and `totalCost(5e-6, 15e-6)` on
that state is `0.083825 + 0.585465 = 0.66929`. -/
theorem concrete_scenario_totals :
    ((CostAccumulator.empty.record ⟨100, 50, ""⟩).record
        ⟨16665, 38981, ""⟩).totalTokens = ⟨16765, 39031, ""⟩
    ∧ ((CostAccumulator.empty.record ⟨100, 50, ""⟩).record
        ⟨16665, 38981, ""⟩).totalCost (5 / 1000000) (15 / 1000000) =
        .ok (66929 / 100000)
    ∧ (66929 : ℚ) / 100000 = 83825 / 1000000 + 585465 / 1000000 := by
  refine ⟨?_, ?_, by norm_num⟩
  · simp [CostAccumulator.totalTokens, CostAccumulator.inputTotal,
      CostAccumulator.outputTotal, CostAccumulator.record,
      CostAccumulator.empty]
  · rw [CostAccumulator.totalCost, if_neg (by norm_num)]
    norm_num [CostAccumulator.inputTotal, CostAccumulator.outputTotal,
      CostAccumulator.record, CostAccumulator.empty]

/-- C7: recording permutation-equivalent sequences of usages into a fresh
accumulator yields the same `totalTokens()`: the order of `record` calls
does not affect the aggregate. -/
theorem totalTokens_perm_invariant (l1 l2 : List TokenUsage)
    (h : l1.Perm l2) :
    (CostAccumulator.empty.recordAll l1).totalTokens =
      (CostAccumulator.empty.recordAll l2).totalTokens := by
  have hin : (l1.map (fun u => u.input_tokens)).sum =
      (l2.map (fun u => u.input_tokens)).sum :=
    (h.map (fun u => u.input_tokens)).sum_eq
  have hout : (l1.map (fun u => u.output_tokens)).sum =
      (l2.map (fun u => u.output_tokens)).sum :=
    (h.map (fun u => u.output_tokens)).sum_eq
  simp only [CostAccumulator.totalTokens, CostAccumulator.inputTotal,
    CostAccumulator.outputTotal, usages_recordAll, CostAccumulator.empty,
    List.nil_append]
  rw [hin, hout]

theorem totalTokens_perm_invariant_witness :
    (CostAccumulator.empty.recordAll
      [⟨1, 2, ""⟩, ⟨3, 4, ""⟩]).totalTokens =
    (CostAccumulator.empty.recordAll
      [⟨3, 4, ""⟩, ⟨1, 2, ""⟩]).totalTokens :=
  totalTokens_perm_invariant _ _ (List.Perm.swap _ _ _)

/-- C8: registering a parser twice under the same identifier succeeds and
a subsequent resolve returns the second parser: re-registration silently
overwrites with last-write-wins semantics. -/
theorem register_last_write_wins (reg : Registry) (k : String)
    (p1 p2 : UsageParser) :
    ((reg.register k p1).register k p2).resolve k = .ok p2 := by
  simp [Registry.register, Registry.resolve]

/-- C9: across every sequence of exposed operations, the running input and
output token totals never decrease: no operation decrements them, and a
fresh accumulator is the only reset. -/
theorem totals_monotone (acc : CostAccumulator) (ops : List AccOp) :
    acc.inputTotal ≤ (ops.foldl AccOp.step acc).inputTotal
    ∧ acc.outputTotal ≤ (ops.foldl AccOp.step acc).outputTotal := by
  induction ops generalizing acc with
  | nil => exact ⟨Nat.le_refl _, Nat.le_refl _⟩
  | cons op rest ih =>
    simp only [List.foldl_cons]
    exact ⟨Nat.le_trans (step_le_inputTotal acc op) (ih (AccOp.step acc op)).1,
      Nat.le_trans (step_le_outputTotal acc op) (ih (AccOp.step acc op)).2⟩

/-- C10: the built-in OpenAI parser always reports an empty model string,
both for a single parsed call and for the aggregate `totalTokens()` over a
whole run, even when the caller knows the underlying model name. -/
theorem openai_parser_empty_model (raw : RawGenerationResult)
    (acc : CostAccumulator) :
    (get_token_usage_for_openai raw).model = ""
    ∧ acc.totalTokens.model = "" :=
  ⟨rfl, rfl⟩
